import Mathlib

/-!
# Verification of the SVGnest core (geometry kernel, NFP calculator, nesting solver)

Shallow embedding of `src/python/geometry_util.py`, `src/python/nfp_calculator.py`
and `src/python/nesting_solver.py` over exact rational arithmetic.

Modelling conventions:
* Python floats are modelled as `ℚ`.  On every concrete input appearing in the
  theorems below the Python float computations are exact, so the embedding agrees
  with the source behaviour there.
* Python `float('inf')` (used as a fitness sentinel) is modelled by `Flt.inf`.
* `math.cos`/`math.sin` (used only by `rotate_polygon`) are abstracted by a
  `trig` oracle supplying the cosine/sine values for a given angle in degrees;
  at the angle `0` Python returns exactly `(1.0, 0.0)`.
* The ambient `random` module is modelled by a stream of natural numbers
  (`RS.vals`), consumed one value per primitive call; `random.randint` on an
  empty range raises `ValueError`, `random.choice` on an empty sequence raises
  `IndexError`, both modelled in the `PyM` monad by `Except`.
* Fallible code (the solver, which can raise through `random.randint`) lives in
  `PyM α = RS → Except PyErr (α × RS)`.
-/

/-- A 2D point (`Point` in geometry_util.py); coordinates are Python floats,
modelled as rationals. -/
structure Pt where
  x : ℚ
  y : ℚ
deriving DecidableEq, Repr

/-- An axis-aligned bounding box, the dict returned by `get_polygon_bounds`. -/
structure Bounds where
  x : ℚ
  y : ℚ
  width : ℚ
  height : ℚ
deriving DecidableEq, Repr

/-- Tolerance constant `TOL = 1e-9` from geometry_util.py. -/
def TOL : ℚ := 1 / 1000000000

/-- `almost_equal(a, b, tolerance)` from geometry_util.py: `abs(a - b) < tolerance`. -/
def almost_equal (a b tolerance : ℚ) : Bool :=
  decide (|a - b| < tolerance)

/-- Floor of a rational number.  Python's float floor-division `//` floors the
exact quotient; `Int.fdiv` is floor division and `q.den` is positive. -/
def ratFloor (q : ℚ) : ℤ :=
  q.num.fdiv (q.den : ℤ)

/-- Python `int()`: truncation toward zero (`Int.tdiv` truncates, `q.den > 0`). -/
def truncQ (q : ℚ) : ℤ :=
  q.num.tdiv (q.den : ℤ)

/-- `polygon_area(polygon)` from geometry_util.py: shoelace formula, `0` for
fewer than 3 points.  The Python loop adds `x_i*y_j - x_j*y_i` for `j = (i+1) % n`. -/
def polygon_area (polygon : List Pt) : ℚ :=
  if polygon.length < 3 then 0
  else
    let n := polygon.length
    ((List.range n).foldl (fun area i =>
      let p := polygon.getD i ⟨0, 0⟩
      let q := polygon.getD ((i + 1) % n) ⟨0, 0⟩
      area + p.x * q.y - q.x * p.y) 0) / 2

/-- `get_polygon_bounds(polygon)` from geometry_util.py: all-zero for empty
input, otherwise min/max folds over the coordinates.  The Python version
initialises the accumulators with `±inf`; for nonempty input this collapses to
folding from the first point. -/
def get_polygon_bounds : List Pt → Bounds
  | [] => ⟨0, 0, 0, 0⟩
  | p :: ps =>
    let min_x := ps.foldl (fun a q => min a q.x) p.x
    let max_x := ps.foldl (fun a q => max a q.x) p.x
    let min_y := ps.foldl (fun a q => min a q.y) p.y
    let max_y := ps.foldl (fun a q => max a q.y) p.y
    ⟨min_x, min_y, max_x - min_x, max_y - min_y⟩

/-- One step of the ray-casting loop in `point_in_polygon`: `p` is `polygon[i]`,
`q` is `polygon[j]` (the previous vertex).  Python's `and` short-circuits, so
the division is evaluated only when the parity guard holds. -/
def pipStep (x y : ℚ) (p q : Pt) (inside : Bool) : Bool :=
  if (decide (p.y > y) != decide (q.y > y)) &&
      decide (x < (q.x - p.x) * (y - p.y) / (q.y - p.y) + p.x)
  then !inside else inside

/-- `point_in_polygon(point, polygon)` from geometry_util.py: ray casting with
`j` starting at `len - 1`, i.e. the previous vertex cyclically. -/
def point_in_polygon (point : Pt) (polygon : List Pt) : Bool :=
  if polygon.length < 3 then false
  else
    let n := polygon.length
    (List.range n).foldl (fun inside i =>
      pipStep point.x point.y (polygon.getD i ⟨0, 0⟩)
        (polygon.getD ((i + n - 1) % n) ⟨0, 0⟩) inside) false

/-- Instrumented variant of `pipStep` returning `none` whenever the evaluated
division has a zero denominator (Python would raise `ZeroDivisionError` there). -/
def pipStepChecked (x y : ℚ) (p q : Pt) (inside : Bool) : Option Bool :=
  if decide (p.y > y) != decide (q.y > y) then
    if q.y - p.y = 0 then none
    else some (if x < (q.x - p.x) * (y - p.y) / (q.y - p.y) + p.x then !inside else inside)
  else some inside

/-- Instrumented `point_in_polygon`: propagates `none` if any evaluated division
in the scan would divide by zero. -/
def point_in_polygon_checked (point : Pt) (polygon : List Pt) : Option Bool :=
  if polygon.length < 3 then some false
  else
    let n := polygon.length
    (List.range n).foldl (fun acc i =>
      match acc with
      | none => none
      | some inside =>
        pipStepChecked point.x point.y (polygon.getD i ⟨0, 0⟩)
          (polygon.getD ((i + n - 1) % n) ⟨0, 0⟩) inside) (some false)

/-- `rotate_polygon(polygon, degrees)` from geometry_util.py.  Python computes
`cos_a = cos(radians(degrees))` and `sin_a = sin(radians(degrees))` in floating
point; the `trig` oracle supplies that pair of values for the given angle. -/
def rotate_polygon (trig : ℚ → ℚ × ℚ) (polygon : List Pt) (degrees : ℚ) : List Pt :=
  let cos_a := (trig degrees).1
  let sin_a := (trig degrees).2
  polygon.map (fun p => ⟨p.x * cos_a - p.y * sin_a, p.x * sin_a + p.y * cos_a⟩)

/-- `translate_polygon(polygon, dx, dy)` from geometry_util.py. -/
def translate_polygon (polygon : List Pt) (dx dy : ℚ) : List Pt :=
  polygon.map (fun p => ⟨p.x + dx, p.y + dy⟩)

/-! ## NFP calculator (`src/python/nfp_calculator.py`)

`NFPCalculator.__init__` sets `self.tolerance = 1e-6`; methods that default on it
receive the tolerance explicitly here. -/

/-- The `NFPCalculator` instance tolerance `1e-6`. -/
def nfpTolerance : ℚ := 1 / 1000000

/-- `_point_on_line(p1, p2, point, tolerance)` from nfp_calculator.py.  Python
computes `distance = |dy*x - dx*y + p2.x*p1.y - p2.y*p1.x| / sqrt(dx^2 + dy^2)`
and tests `distance < tolerance`; over `ℚ` we use the equivalent square
comparison (for `dx^2 + dy^2 > 0`, `|num|/sqrt(d) < tol` iff `tol > 0` and
`num^2 < tol^2 * d`). -/
def point_on_line (p1 p2 point : Pt) (tolerance : ℚ) : Bool :=
  let dx := p2.x - p1.x
  let dy := p2.y - p1.y
  if almost_equal dx 0 TOL && almost_equal dy 0 TOL then false
  else
    let num := dy * point.x - dx * point.y + p2.x * p1.y - p2.y * p1.x
    decide (0 < tolerance) && decide (num ^ 2 < tolerance ^ 2 * (dx ^ 2 + dy ^ 2))

/-- The pruning pass of `simplify_nfp`: keep `nfp[i]` unless it lies on the line
through its cyclic neighbours `nfp[i-1]` and `nfp[(i+1) % n]` (Python's `nfp[i-1]`
is `nfp[n-1]` for `i = 0`). -/
def pruneCollinear (nfp : List Pt) (tolerance : ℚ) : List Pt :=
  let n := nfp.length
  (List.range n).filterMap (fun i =>
    let current := nfp.getD i ⟨0, 0⟩
    let prev := nfp.getD ((i + n - 1) % n) ⟨0, 0⟩
    let next := nfp.getD ((i + 1) % n) ⟨0, 0⟩
    if point_on_line prev next current tolerance then none else some current)

/-- `simplify_nfp(nfp, tolerance)` from nfp_calculator.py: inputs with fewer
than 3 points are returned unchanged; otherwise collinear points are pruned and
the original input is returned if fewer than 3 points would remain. -/
def simplify_nfp (nfp : List Pt) (tolerance : ℚ) : List Pt :=
  if nfp.length < 3 then nfp
  else
    let simplified := pruneCollinear nfp tolerance
    if 3 ≤ simplified.length then simplified else nfp

/-- `nfp_intersect(nfp1, nfp2)` from nfp_calculator.py: returns the input with
the smaller absolute enclosed area wrapped as a one-region result, or the empty
result when that smaller area is zero. -/
def nfp_intersect (nfp1 nfp2 : List Pt) : List (List Pt) :=
  let area1 := |polygon_area nfp1|
  let area2 := |polygon_area nfp2|
  if area1 < area2 then (if 0 < area1 then [nfp1] else [])
  else (if 0 < area2 then [nfp2] else [])

/-! ## Nesting solver (`src/python/nesting_solver.py`)

The solver uses Python's global `random`.  We model it by an explicit stream of
natural numbers: each primitive call consumes one stream value (two for
`random.sample(range(n), 2)`) and interprets it modulo the size of the requested
range, matching CPython's `_randbelow`-based implementations.  Exceptions
(`ValueError` from `random.randint(a, b)` with `a > b`, `IndexError` from
`random.choice([])`) are modelled with `Except`. -/

/-- Exceptions the embedded solver can raise. -/
inductive PyErr where
  | valueError : PyErr
  | indexError : PyErr
deriving DecidableEq, Repr

/-- Random-source state: the value stream and the current position in it. -/
structure RS where
  vals : ℕ → ℕ
  pos : ℕ

/-- The solver's effect monad: state (random source) plus exceptions. -/
def PyM (α : Type) : Type :=
  RS → Except PyErr (α × RS)

/-- Monadic return for `PyM`. -/
def PyM.pure (a : α) : PyM α := fun s => .ok (a, s)

/-- Monadic bind for `PyM`. -/
def PyM.bind (m : PyM α) (f : α → PyM β) : PyM β := fun s =>
  match m s with
  | .ok (a, s') => f a s'
  | .error e => .error e

instance : Monad PyM where
  pure := PyM.pure
  bind := PyM.bind

/-- Raise an exception. -/
def PyM.throw (e : PyErr) : PyM α := fun _ => .error e

/-- Consume one value from the random stream. -/
def draw : PyM ℕ := fun s => .ok (s.vals s.pos, { s with pos := s.pos + 1 })

/-- `random.randint(lo, hi)`: inclusive range; raises `ValueError` when the
range is empty, otherwise interprets one stream value into `[lo, hi]`. -/
def randint (lo hi : ℤ) : PyM ℤ :=
  if hi < lo then PyM.throw .valueError
  else PyM.bind draw (fun n => PyM.pure (lo + ((n % (hi - lo + 1).toNat : ℕ) : ℤ)))

/-- `random.choice(seq)`: raises `IndexError` on an empty sequence, otherwise
picks the element indexed by one stream value modulo the length. -/
def choice (xs : List α) : PyM α :=
  match xs with
  | [] => PyM.throw .indexError
  | x :: rest =>
    PyM.bind draw (fun n =>
      PyM.pure ((x :: rest).get ⟨n % (rest.length + 1), Nat.mod_lt n (Nat.succ_pos rest.length)⟩))

/-- Swap the elements at positions `i` and `j` of a list (Python
`x[i], x[j] = x[j], x[i]`); out-of-range indices leave the list unchanged. -/
def listSwap (xs : List α) (i j : ℕ) : List α :=
  match xs.get? i, xs.get? j with
  | some a, some b => (xs.set i b).set j a
  | _, _ => xs

/-- Fisher–Yates steps of CPython's `random.shuffle`: for `i` from `len - 1`
down to `1`, draw `j = _randbelow(i + 1)` and swap positions `i` and `j`. -/
def shuffleAux (xs : List α) : ℕ → PyM (List α)
  | 0 => PyM.pure xs
  | Nat.succ k =>
    PyM.bind draw (fun n => shuffleAux (listSwap xs (k + 1) (n % (k + 2))) k)

/-- `random.shuffle(xs)`. -/
def shuffle (xs : List α) : PyM (List α) :=
  shuffleAux xs (xs.length - 1)

/-- `random.sample(range(n), 2)`: two distinct indices below `n`; raises
`ValueError` when `n < 2`. -/
def sample2 (n : ℕ) : PyM (ℕ × ℕ) :=
  if n < 2 then PyM.throw .valueError
  else
    PyM.bind draw (fun a =>
      PyM.bind draw (fun b =>
        let i := a % n
        let j0 := b % (n - 1)
        PyM.pure (i, if j0 < i then j0 else j0 + 1)))

/-- A gene: part-instance id plus rotation-variant index. -/
structure Gene where
  id : ℕ
  rotation : ℕ
deriving DecidableEq, Repr

/-- Python `float` values used for fitness: either `float('inf')` or a finite
value. -/
inductive Flt where
  | inf : Flt
  | val : ℚ → Flt
deriving DecidableEq, Repr

/-- Python `<` on fitness values (`inf` compares greater than every finite value). -/
def fltLt : Flt → Flt → Bool
  | Flt.inf, _ => false
  | Flt.val _, Flt.inf => true
  | Flt.val a, Flt.val b => decide (a < b)

/-- Python `>=` on fitness values: `a >= b` iff `¬(a < b)` (total order, no NaN). -/
def fltGe (a b : Flt) : Bool := !(fltLt a b)

/-- Python `<=` on fitness values. -/
def fltLe (a b : Flt) : Bool := !(fltLt b a)

/-- Python `min(a, b)`: returns `b` exactly when `b < a` (first argument wins ties). -/
def fltMin (a b : Flt) : Flt := if fltLt b a then b else a

/-- A placement record produced by `_evaluate_fitness`. -/
structure Placement where
  id : ℕ
  x : ℤ
  y : ℤ
  rotation : ℚ
  polygon : List Pt
deriving DecidableEq, Repr

/-- An `Individual`: genes plus the fitness/placements filled in by evaluation
(`__init__` sets `fitness = float('inf')`, `placements = []`). -/
structure Individual where
  genes : List Gene
  fitness : Flt
  placements : List Placement
deriving DecidableEq, Repr

/-- The `self.config` dict of `NestingSolver` (defaults `10, 10, 4, 0, 50`). -/
structure Config where
  population_size : ℕ
  mutation_rate : ℤ
  rotations : ℕ
  spacing : ℚ
  max_generations : ℕ
deriving DecidableEq, Repr

/-- One precomputed rotation variant of a part. -/
structure RotData where
  angle : ℚ
  polygon : List Pt
deriving DecidableEq, Repr

/-- One entry of `prepared_parts` in `solve`. -/
structure PartData where
  id : ℕ
  polygon : List Pt
  rotations : List RotData
deriving DecidableEq, Repr

/-- The `prepared_parts` loop of `solve`: for part `i`, rotation variants at
angles `(360 / rotations) * r` for `r = 0, ..., rotations - 1`. -/
def prepareParts (cfg : Config) (trig : ℚ → ℚ × ℚ) (parts : List (List Pt)) : List PartData :=
  parts.enum.map (fun pr =>
    { id := pr.1, polygon := pr.2,
      rotations := (List.range cfg.rotations).map (fun r : ℕ =>
        let angle : ℚ := (360 / (cfg.rotations : ℚ)) * (r : ℚ)
        { angle := angle, polygon := rotate_polygon trig pr.2 angle }) })

/-- The gene-construction loop of the population initialiser: one gene per
prepared part, with `rotation = random.randint(0, len(rotations) - 1)`. -/
def genGenes : List PartData → PyM (List Gene)
  | [] => PyM.pure []
  | part :: rest =>
    PyM.bind (randint 0 ((part.rotations.length : ℤ) - 1)) (fun r =>
      PyM.bind (genGenes rest) (fun gs =>
        PyM.pure ({ id := part.id, rotation := r.toNat } :: gs)))

/-- Initialise `n` individuals: genes per part, then `random.shuffle`. -/
def initPopAux (pp : List PartData) : ℕ → PyM (List Individual)
  | 0 => PyM.pure []
  | Nat.succ n =>
    PyM.bind (genGenes pp) (fun genes =>
      PyM.bind (shuffle genes) (fun genes2 =>
        PyM.bind (initPopAux pp n) (fun rest =>
          PyM.pure ({ genes := genes2, fitness := Flt.inf, placements := [] } :: rest))))

/-- The population-initialisation loop of `solve`. -/
def initPopulation (cfg : Config) (pp : List PartData) : PyM (List Individual) :=
  initPopAux pp cfg.population_size

/-- Python `range(a, b, step)` for positive `step`: values from `a`, advancing
by `step`, strictly below `b`.  The fuel `(b - a).toNat` bounds the element
count since each step advances by at least 1. -/
def pyRangeAux (a b step : ℤ) : ℕ → List ℤ
  | 0 => []
  | Nat.succ fuel => if a < b then a :: pyRangeAux (a + step) b step fuel else []

/-- Python `range(a, b, step)` (used in `_find_position` with `step ≥ 20`). -/
def pyRange (a b step : ℤ) : List ℤ :=
  pyRangeAux a b step (b - a).toNat

/-- First `some` produced by `f` over a list (models returning from inside the
scan loops of `_find_position` at the first feasible candidate). -/
def firstSome (f : α → Option β) : List α → Option β
  | [] => none
  | a :: rest =>
    match f a with
    | some b => some b
    | none => firstSome f rest

/-- `_bounds_overlap(bounds1, bounds2)` from nesting_solver.py. -/
def bounds_overlap (b1 b2 : Bounds) : Bool :=
  !(decide (b1.x + b1.width ≤ b2.x) || decide (b2.x + b2.width ≤ b1.x) ||
    decide (b1.y + b1.height ≤ b2.y) || decide (b2.y + b2.height ≤ b1.y))

/-- The grid step of `_find_position`:
`step_size = max(20, min(poly_bounds['width'], poly_bounds['height']) // 4)`
(Python float floor division). -/
def grid_step (pb : Bounds) : ℚ :=
  max 20 ((ratFloor (min pb.width pb.height / 4) : ℤ) : ℚ)

/-- The grid-step rule as the spec states it (§4.3): exact real division,
`max(20, min(part bbox width, part bbox height) / 4)`. -/
def spec_grid_step (pb : Bounds) : ℚ :=
  max 20 (min pb.width pb.height / 4)

/-- The per-candidate test of `_find_position`: translated bbox inside the
container bounds, and no bbox overlap with an already placed part. -/
def candidateAt (polygon : List Pt) (placed : List Placement) (cb : Bounds)
    (x y : ℤ) : Option (ℤ × ℤ) :=
  let test_polygon := translate_polygon polygon (x : ℚ) (y : ℚ)
  let tb := get_polygon_bounds test_polygon
  if decide (cb.x ≤ tb.x) && decide (cb.y ≤ tb.y) &&
      decide (tb.x + tb.width ≤ cb.x + cb.width) &&
      decide (tb.y + tb.height ≤ cb.y + cb.height) then
    if placed.all (fun pl => !(bounds_overlap tb (get_polygon_bounds pl.polygon))) then
      some (x, y)
    else none
  else none

/-- `_find_position(polygon, placed, container_bounds)` from nesting_solver.py:
bottom-left scan over the grid
`y in range(int(cb.y), int(cb.y + cb.height - pb.height), int(step))`,
`x in range(int(cb.x), int(cb.x + cb.width - pb.width), int(step))`,
returning the first candidate passing `candidateAt`. -/
def find_position (polygon : List Pt) (placed : List Placement) (cb : Bounds) :
    Option (ℤ × ℤ) :=
  let pb := get_polygon_bounds polygon
  let step := truncQ (grid_step pb)
  let ys := pyRange (truncQ cb.y) (truncQ (cb.y + cb.height - pb.height)) step
  let xs := pyRange (truncQ cb.x) (truncQ (cb.x + cb.width - pb.width)) step
  firstSome (fun y => firstSome (fun x => candidateAt polygon placed cb x y) xs) ys

/-- `_evaluate_fitness(individual, parts, container)` from nesting_solver.py:
greedy in-order placement of each gene's rotation variant; genes with no
feasible position are skipped; fitness is the area of the bbox of all placed
polygons, `inf` when nothing was placed.  Gene ids and rotation indices are
always in range in `solve`'s usage, so out-of-range lookups default. -/
def evaluate_fitness (pp : List PartData) (container : List Pt) (ind : Individual) :
    Flt × List Placement :=
  let cb := get_polygon_bounds container
  let placements := ind.genes.foldl (fun acc gene =>
    let part := pp.getD gene.id { id := 0, polygon := [], rotations := [] }
    let rotation_data := part.rotations.getD gene.rotation { angle := 0, polygon := [] }
    let polygon := rotation_data.polygon
    match find_position polygon acc cb with
    | some (x, y) =>
      acc ++ [{ id := gene.id, x := x, y := y, rotation := rotation_data.angle,
                polygon := translate_polygon polygon (x : ℚ) (y : ℚ) }]
    | none => acc) []
  if placements.isEmpty then (Flt.inf, [])
  else
    let all_points := placements.foldl (fun pts pl => pts ++ pl.polygon) []
    let b := get_polygon_bounds all_points
    (Flt.val (b.width * b.height), placements)

/-- The best-ever tracking state of `solve`'s generation loop. -/
structure BestState where
  best_fitness : Flt
  best_individual : Option Individual
  no_improvement_count : ℕ
deriving Repr

/-- Result of the per-individual evaluation loop of one generation. -/
structure EvalOut where
  population : List Individual
  state : BestState
  generation_best : Flt
deriving Repr

/-- The per-individual loop of one generation of `solve`: evaluate each
individual, store its fitness/placements, update the best-ever state (resetting
`no_improvement_count` on improvement), and accumulate `generation_best`. -/
def evalLoop (pp : List PartData) (container : List Pt) :
    List Individual → BestState → Flt → EvalOut
  | [], st, generation_best => { population := [], state := st, generation_best }
  | ind :: rest, st, generation_best =>
    let fp := evaluate_fitness pp container ind
    let ind2 : Individual := { ind with fitness := fp.1, placements := fp.2 }
    let st2 := if fltLt fp.1 st.best_fitness then
        { best_fitness := fp.1, best_individual := some ind2, no_improvement_count := 0 }
      else st
    let out := evalLoop pp container rest st2 (fltMin generation_best fp.1)
    { out with population := ind2 :: out.population }

/-- Result of the deterministic first phase of one generation. -/
structure GenOut where
  population : List Individual
  state : BestState
  brk : Bool
deriving Repr

/-- The deterministic phase of one generation (lines 56-74 of
nesting_solver.py): evaluate the population, then
`if generation_best >= best_fitness: no_improvement_count += 1;
if no_improvement_count >= 10: break`. -/
def generationEval (pp : List PartData) (container : List Pt)
    (population : List Individual) (st : BestState) : GenOut :=
  let out := evalLoop pp container population st Flt.inf
  if fltGe out.generation_best out.state.best_fitness then
    let st2 := { out.state with
      no_improvement_count := out.state.no_improvement_count + 1 }
    { population := out.population, state := st2,
      brk := decide (10 ≤ st2.no_improvement_count) }
  else
    { population := out.population, state := out.state, brk := false }

/-- `_crossover(parent1, parent2)` from nesting_solver.py:
`cut = random.randint(1, size - 1)` with `size = len(parent1.genes)`, child
genes are `parent1.genes[:cut] + parent2.genes[cut:]`, fresh `Individual`. -/
def crossover (parent1 parent2 : Individual) : PyM Individual :=
  let size := parent1.genes.length
  PyM.bind (randint 1 ((size : ℤ) - 1)) (fun cut =>
    PyM.pure { genes := parent1.genes.take cut.toNat ++ parent2.genes.drop cut.toNat,
               fitness := Flt.inf, placements := [] })

/-- `_mutate(individual)` from nesting_solver.py: with probability
`mutation_rate`/100 (via `randint(1, 100) <= rate`), swap two distinct random
gene positions when there is more than one gene. -/
def mutate (cfg : Config) (individual : Individual) : PyM Individual :=
  PyM.bind (randint 1 100) (fun roll =>
    if roll ≤ cfg.mutation_rate then
      if 1 < individual.genes.length then
        PyM.bind (sample2 individual.genes.length) (fun ij =>
          PyM.pure { individual with genes := listSwap individual.genes ij.1 ij.2 })
      else PyM.pure individual
    else PyM.pure individual)

/-- The refill loop of `solve`:
`while len(new_population) < population_size: pick two parents from the sorted
population's first 5, crossover, mutate, append`.  Each iteration appends one
child, so `population_size` fuel suffices. -/
def refillLoop (cfg : Config) (population : List Individual) :
    List Individual → ℕ → PyM (List Individual)
  | newpop, 0 => PyM.pure newpop
  | newpop, Nat.succ fuel =>
    if newpop.length < cfg.population_size then
      PyM.bind (choice (population.take 5)) (fun parent1 =>
        PyM.bind (choice (population.take 5)) (fun parent2 =>
          PyM.bind (crossover parent1 parent2) (fun child =>
            PyM.bind (mutate cfg child) (fun child2 =>
              refillLoop cfg population (newpop ++ [child2]) fuel))))
    else PyM.pure newpop

/-- The generation loop of `solve` (`for generation in range(max_generations)`),
with the early `break`, the ascending stable sort by fitness, elitist survival
of the first half, and the random refill. -/
def generationLoop (cfg : Config) (pp : List PartData) (container : List Pt) :
    List Individual → BestState → ℕ → PyM BestState
  | _, st, 0 => PyM.pure st
  | population, st, Nat.succ gens =>
    let g := generationEval pp container population st
    if g.brk then PyM.pure g.state
    else
      let sorted := g.population.mergeSort (fun a b => fltLe a.fitness b.fitness)
      PyM.bind (refillLoop cfg sorted (sorted.take (cfg.population_size / 2))
          cfg.population_size)
        (fun newpop => generationLoop cfg pp container newpop g.state gens)

/-- The record returned by `solve`. -/
structure SolveResult where
  fitness : Flt
  placements : List Placement
deriving Repr

/-- `NestingSolver.solve(parts, container)` from nesting_solver.py. -/
def solve (cfg : Config) (trig : ℚ → ℚ × ℚ) (parts : List (List Pt))
    (container : List Pt) : PyM SolveResult :=
  if parts.isEmpty || container.isEmpty then
    PyM.pure { fitness := Flt.inf, placements := [] }
  else
    let pp := prepareParts cfg trig parts
    PyM.bind (initPopulation cfg pp) (fun population =>
      PyM.bind (generationLoop cfg pp container population
          { best_fitness := Flt.inf, best_individual := none, no_improvement_count := 0 }
          cfg.max_generations)
        (fun st =>
          PyM.pure { fitness := st.best_fitness,
                     placements := match st.best_individual with
                                   | some b => b.placements
                                   | none => [] }))

/-! ## Concrete inputs used by the claim theorems -/

/-- The 10x10 axis-aligned square part of the spec's scenario (section 8). -/
def square10 : List Pt := [⟨0, 0⟩, ⟨10, 0⟩, ⟨10, 10⟩, ⟨0, 10⟩]

/-- The (0,0)-(100,100) container square of the spec's scenario (section 8). -/
def square100 : List Pt := [⟨0, 0⟩, ⟨100, 0⟩, ⟨100, 100⟩, ⟨0, 100⟩]

/-- Trig oracle for runs that only query the angle 0, where Python's
`math.cos`/`math.sin` return exactly `1.0` and `0.0`. -/
def trigZero : ℚ → ℚ × ℚ := fun _ => (1, 0)

/-- The scenario configuration of the spec (section 8): `rotations = 1`,
`population_size = 4`, `max_generations = 5`, other fields at their defaults. -/
def scenarioConfig : Config :=
  { population_size := 4, mutation_rate := 10, rotations := 1, spacing := 0,
    max_generations := 5 }

/-- The default `NestingSolver.__init__` configuration. -/
def defaultConfig : Config :=
  { population_size := 10, mutation_rate := 10, rotations := 4, spacing := 0,
    max_generations := 50 }

/-- The prepared parts of the scenario. -/
def scenarioParts : List PartData := prepareParts scenarioConfig trigZero [square10]

/-- A fresh one-gene individual for the scenario part. -/
def scenarioIndividual : Individual :=
  { genes := [{ id := 0, rotation := 0 }], fitness := Flt.inf, placements := [] }

/-- The initial best-ever state of `solve`'s generation loop. -/
def initialBest : BestState :=
  { best_fitness := Flt.inf, best_individual := none, no_improvement_count := 0 }

/-- An 82x200 rectangle: its bbox has `min(width, height) = 82`, where floor
division by 4 (the code) and exact division by 4 (the spec) differ. -/
def rect82 : List Pt := [⟨0, 0⟩, ⟨82, 0⟩, ⟨82, 200⟩, ⟨0, 200⟩]

/-! ## Basic lemmas about the effect monad and the random primitives -/

theorem PyM.bind_ok {α β : Type} {m : PyM α} {f : α → PyM β} {s s2 : RS} {a : α}
    (h : m s = .ok (a, s2)) : PyM.bind m f s = f a s2 := by
  simp [PyM.bind, h]

theorem PyM.bind_err {α β : Type} {m : PyM α} {f : α → PyM β} {s : RS} {e : PyErr}
    (h : m s = .error e) : PyM.bind m f s = .error e := by
  simp [PyM.bind, h]

theorem PyM.pure_apply {α : Type} (a : α) (s : RS) : PyM.pure a s = .ok (a, s) := rfl

theorem randint_err (lo hi : ℤ) (h : hi < lo) (s : RS) :
    randint lo hi s = .error .valueError := by
  simp [randint, if_pos h, PyM.throw]

theorem randint_ok (lo hi : ℤ) (h : lo ≤ hi) (s : RS) :
    ∃ v : ℤ, randint lo hi s = .ok (v, { s with pos := s.pos + 1 }) ∧ lo ≤ v ∧ v ≤ hi := by
  refine ⟨lo + ((s.vals s.pos % (hi - lo + 1).toNat : ℕ) : ℤ), ?_, ?_, ?_⟩
  · simp [randint, if_neg (not_lt.mpr h), PyM.bind, draw, PyM.pure]
  · omega
  · have hlt : (s.vals s.pos % (hi - lo + 1).toNat : ℕ) < (hi - lo + 1).toNat :=
      Nat.mod_lt _ (by omega)
    omega

theorem choice_ok {α : Type} (x : α) (rest : List α) (s : RS) :
    ∃ a : α, choice (x :: rest) s = .ok (a, { s with pos := s.pos + 1 }) ∧ a ∈ x :: rest := by
  refine ⟨(x :: rest).get ⟨s.vals s.pos % (rest.length + 1),
    Nat.mod_lt _ (Nat.succ_pos rest.length)⟩, ?_, ?_⟩
  · simp [choice, PyM.bind, draw, PyM.pure]
  · exact List.get_mem _ _ _

/-! ## Order lemmas for `Flt` -/

theorem flt_lt_irrefl (a : Flt) : fltLt a a = false := by
  cases a <;> simp [fltLt]

theorem flt_le_refl (a : Flt) : fltLe a a = true := by
  simp [fltLe, flt_lt_irrefl]

theorem flt_le_inf (a : Flt) : fltLe a Flt.inf = true := by
  cases a <;> simp [fltLe, fltLt]

theorem flt_le_of_lt {a b : Flt} (h : fltLt a b = true) : fltLe a b = true := by
  cases a <;> cases b <;> simp [fltLt, fltLe] at * <;> linarith

theorem flt_le_of_not_lt {a b : Flt} (h : fltLt a b = false) : fltLe b a = true := by
  simp [fltLe, h]

theorem flt_le_trans {a b c : Flt} (hab : fltLe a b = true) (hbc : fltLe b c = true) :
    fltLe a c = true := by
  cases a <;> cases b <;> cases c <;> simp [fltLt, fltLe] at * <;> linarith

theorem flt_lt_of_le_of_lt {a b c : Flt} (hab : fltLe a b = true) (hbc : fltLt b c = true) :
    fltLt a c = true := by
  cases a <;> cases b <;> cases c <;> simp [fltLt, fltLe] at * <;> linarith

theorem flt_lt_of_lt_of_le {a b c : Flt} (hab : fltLt a b = true) (hbc : fltLe b c = true) :
    fltLt a c = true := by
  cases a <;> cases b <;> cases c <;> simp [fltLt, fltLe] at * <;> linarith

theorem flt_le_min {a b c : Flt} (hab : fltLe a b = true) (hac : fltLe a c = true) :
    fltLe a (fltMin b c) = true := by
  unfold fltMin
  split <;> assumption

theorem fltMin_le_left (a b : Flt) : fltLe (fltMin a b) a = true := by
  unfold fltMin
  split
  · exact flt_le_of_lt (by assumption)
  · exact flt_le_refl a

theorem fltMin_le_right (a b : Flt) : fltLe (fltMin a b) b = true := by
  unfold fltMin
  split
  · exact flt_le_refl b
  · exact flt_le_of_not_lt (by simp_all)

theorem fltMin_eq_right {a b : Flt} (h : fltLe b a = true) : fltMin a b = b := by
  unfold fltMin
  split
  · rfl
  · rename_i hlt
    simp only [Bool.not_eq_true] at hlt
    cases a <;> cases b <;> simp [fltLt, fltLe] at * <;> linarith

theorem fltMin_lt_left_eq (a b : Flt) : fltLt (fltMin a b) a = fltLt b a := by
  unfold fltMin
  split
  · rfl
  · simp_all [flt_lt_irrefl]


/-! ## The evaluation phase of one generation -/

theorem evalLoop_nil (pp : List PartData) (container : List Pt) (st : BestState) (g : Flt) :
    evalLoop pp container [] st g = { population := [], state := st, generation_best := g } :=
  rfl

theorem evalLoop_cons (pp : List PartData) (container : List Pt) (ind : Individual)
    (rest : List Individual) (st : BestState) (g : Flt) :
    evalLoop pp container (ind :: rest) st g =
      (let fp := evaluate_fitness pp container ind
       let ind2 : Individual := { ind with fitness := fp.1, placements := fp.2 }
       let st2 := if fltLt fp.1 st.best_fitness then
           { best_fitness := fp.1, best_individual := some ind2, no_improvement_count := 0 }
         else st
       let out := evalLoop pp container rest st2 (fltMin g fp.1)
       { out with population := ind2 :: out.population }) :=
  rfl

/-- Invariants of the per-individual loop: under `st.best_fitness ≤ g`, the
final best is the min of the incoming best and the generation best, the counter
is reset exactly when the best strictly improved, and the generation best only
decreases from its accumulator. -/
theorem evalLoop_spec (pp : List PartData) (container : List Pt)
    (pop : List Individual) : ∀ (st : BestState) (g : Flt),
    fltLe st.best_fitness g = true →
    (evalLoop pp container pop st g).state.best_fitness
        = fltMin st.best_fitness (evalLoop pp container pop st g).generation_best ∧
    (evalLoop pp container pop st g).state.no_improvement_count
        = (if fltLt (evalLoop pp container pop st g).state.best_fitness st.best_fitness
           then 0 else st.no_improvement_count) ∧
    fltLe (evalLoop pp container pop st g).generation_best g = true := by
  induction pop with
  | nil =>
    intro st g hg
    rw [evalLoop_nil]
    refine ⟨?_, ?_, flt_le_refl g⟩
    · have hng : fltLt g st.best_fitness = false := by
        have h2 := hg
        unfold fltLe at h2
        simpa using h2
      simp [fltMin, hng]
    · simp [flt_lt_irrefl]
  | cons ind rest ih =>
    intro st g hg
    by_cases hlt : fltLt (evaluate_fitness pp container ind).1 st.best_fitness = true
    · simp only [evalLoop_cons, hlt, if_true]
      have hfg : fltLe (evaluate_fitness pp container ind).1
          (fltMin g (evaluate_fitness pp container ind).1) = true :=
        flt_le_min (flt_le_of_lt (flt_lt_of_lt_of_le hlt hg))
          (flt_le_refl (evaluate_fitness pp container ind).1)
      obtain ⟨h1, h2, h3⟩ := ih
        { best_fitness := (evaluate_fitness pp container ind).1,
          best_individual := some { ind with
            fitness := (evaluate_fitness pp container ind).1,
            placements := (evaluate_fitness pp container ind).2 },
          no_improvement_count := 0 }
        (fltMin g (evaluate_fitness pp container ind).1) hfg
      simp only at h1 h2 h3
      have hgbf : fltLe (evalLoop pp container rest
          { best_fitness := (evaluate_fitness pp container ind).1,
            best_individual := some { ind with
              fitness := (evaluate_fitness pp container ind).1,
              placements := (evaluate_fitness pp container ind).2 },
            no_improvement_count := 0 }
          (fltMin g (evaluate_fitness pp container ind).1)).generation_best
          (evaluate_fitness pp container ind).1 = true :=
        flt_le_trans h3 (fltMin_le_right g (evaluate_fitness pp container ind).1)
      have hbest : (evalLoop pp container rest
          { best_fitness := (evaluate_fitness pp container ind).1,
            best_individual := some { ind with
              fitness := (evaluate_fitness pp container ind).1,
              placements := (evaluate_fitness pp container ind).2 },
            no_improvement_count := 0 }
          (fltMin g (evaluate_fitness pp container ind).1)).state.best_fitness
          = (evalLoop pp container rest
          { best_fitness := (evaluate_fitness pp container ind).1,
            best_individual := some { ind with
              fitness := (evaluate_fitness pp container ind).1,
              placements := (evaluate_fitness pp container ind).2 },
            no_improvement_count := 0 }
          (fltMin g (evaluate_fitness pp container ind).1)).generation_best := by
        rw [h1, fltMin_eq_right hgbf]
      refine ⟨?_, ?_, ?_⟩
      · rw [hbest, fltMin_eq_right (flt_le_of_lt (flt_lt_of_le_of_lt hgbf hlt))]
      · rw [h2, hbest]
        rw [if_pos (flt_lt_of_le_of_lt hgbf hlt)]
        simp
      · exact flt_le_trans h3 (fltMin_le_left g (evaluate_fitness pp container ind).1)
    · have hlt2 : fltLt (evaluate_fitness pp container ind).1 st.best_fitness = false :=
        Bool.not_eq_true _ |>.mp hlt
      simp only [evalLoop_cons, hlt2, if_false]
      have hbf : fltLe st.best_fitness
          (fltMin g (evaluate_fitness pp container ind).1) = true :=
        flt_le_min hg (flt_le_of_not_lt hlt2)
      obtain ⟨h1, h2, h3⟩ := ih st (fltMin g (evaluate_fitness pp container ind).1) hbf
      exact ⟨h1, h2,
        flt_le_trans h3 (fltMin_le_left g (evaluate_fitness pp container ind).1)⟩

/-- The evaluated population keeps the individuals' genes (only fitness and
placements are written). -/
theorem evalLoop_genes (pp : List PartData) (container : List Pt)
    (pop : List Individual) : ∀ (st : BestState) (g : Flt),
    (evalLoop pp container pop st g).population.length = pop.length ∧
    ∀ ind2 ∈ (evalLoop pp container pop st g).population,
      ∃ ind ∈ pop, ind2.genes = ind.genes := by
  induction pop with
  | nil =>
    intro st g
    rw [evalLoop_nil]
    simp
  | cons ind rest ih =>
    intro st g
    rw [evalLoop_cons]
    simp only []
    constructor
    · simpa using ((ih _ _).1)
    · intro ind2 hmem
      simp only [List.mem_cons] at hmem
      rcases hmem with h | h
      · exact ⟨ind, List.mem_cons_self ind rest, by rw [h]⟩
      · obtain ⟨ind0, hmem0, hg0⟩ := (ih _ _).2 ind2 h
        exact ⟨ind0, List.mem_cons_of_mem ind hmem0, hg0⟩

/-- The deterministic phase of one generation: the post-update comparison
`generation_best >= best_fitness` always holds (the best-ever was just updated
to the min), so the stagnation counter is incremented in every generation; it
was reset to zero during the loop exactly when the generation improved on the
incoming best-ever.  The break flag is exactly `10 ≤ counter` after the
increment, and the population/best-fitness are those of the evaluation loop. -/
theorem generationEval_spec (pp : List PartData) (container : List Pt)
    (population : List Individual) (st : BestState) :
    (generationEval pp container population st).state.no_improvement_count
      = (if fltLt (evalLoop pp container population st Flt.inf).generation_best
            st.best_fitness then 0 else st.no_improvement_count) + 1 ∧
    (generationEval pp container population st).brk
      = decide (10 ≤ (generationEval pp container population st).state.no_improvement_count) ∧
    (generationEval pp container population st).population
      = (evalLoop pp container population st Flt.inf).population ∧
    (generationEval pp container population st).state.best_fitness
      = fltMin st.best_fitness (evalLoop pp container population st Flt.inf).generation_best := by
  obtain ⟨h1, h2, h3⟩ := evalLoop_spec pp container population st Flt.inf (flt_le_inf _)
  have hle : fltLe (evalLoop pp container population st Flt.inf).state.best_fitness
      (evalLoop pp container population st Flt.inf).generation_best = true := by
    rw [h1]
    exact fltMin_le_right _ _
  have hcond : fltGe (evalLoop pp container population st Flt.inf).generation_best
      (evalLoop pp container population st Flt.inf).state.best_fitness = true := by
    unfold fltGe
    unfold fltLe at hle
    simpa using hle
  unfold generationEval
  simp only [hcond, if_true]
  refine ⟨?_, ?_, ?_, ?_⟩
  · rw [h2, h1, fltMin_lt_left_eq]
  · trivial
  · trivial
  · exact h1

/-! ## Crossover -/

/-- `_crossover` on parents with `N ≥ 2` genes each: some cut `1 ≤ cut ≤ N - 1`
is drawn, and the child is the raw slice concatenation with exactly `N` genes. -/
theorem crossover_ok (parent1 parent2 : Individual) (N : ℕ) (s : RS)
    (h1 : parent1.genes.length = N) (h2 : parent2.genes.length = N) (hN : 2 ≤ N) :
    ∃ (child : Individual) (cut : ℕ),
      crossover parent1 parent2 s = .ok (child, { s with pos := s.pos + 1 }) ∧
      1 ≤ cut ∧ cut ≤ N - 1 ∧
      child.genes = parent1.genes.take cut ++ parent2.genes.drop cut ∧
      child.genes.length = N := by
  obtain ⟨v, hv, hlo, hhi⟩ := randint_ok 1 ((parent1.genes.length : ℤ) - 1)
    (by rw [h1]; omega) s
  refine ⟨{ genes := parent1.genes.take v.toNat ++ parent2.genes.drop v.toNat,
            fitness := Flt.inf, placements := [] }, v.toNat, ?_, by omega, by omega, rfl, ?_⟩
  · unfold crossover
    rw [PyM.bind_ok hv]
    rfl
  · have hcut : v.toNat ≤ N - 1 := by omega
    simp only [List.length_append, List.length_take, List.length_drop, h1, h2]
    omega

/-- `_crossover` on a single-gene parent raises `ValueError`
(`random.randint(1, 0)` has an empty range). -/
theorem crossover_single_err (parent1 parent2 : Individual) (s : RS)
    (h1 : parent1.genes.length = 1) :
    crossover parent1 parent2 s = .error .valueError := by
  unfold crossover
  rw [PyM.bind_err (randint_err 1 ((parent1.genes.length : ℤ) - 1) (by rw [h1]; norm_num) s)]

/-! ## The refill loop crashes on single-gene populations -/

/-- If the refill loop still needs children and every individual in the (sorted)
population has exactly one gene, the first crossover raises `ValueError`. -/
theorem refillLoop_single_err (cfg : Config) (population newpop : List Individual)
    (fuel : ℕ) (s : RS)
    (hneed : newpop.length < cfg.population_size)
    (hpop : population ≠ [])
    (hgenes : ∀ ind ∈ population, ind.genes.length = 1)
    (hfuel : 1 ≤ fuel) :
    refillLoop cfg population newpop fuel s = .error .valueError := by
  obtain ⟨fuel2, rfl⟩ : ∃ f2, fuel = f2 + 1 := ⟨fuel - 1, by omega⟩
  obtain ⟨x, rest, rfl⟩ : ∃ x rest, population = x :: rest := by
    cases population with
    | nil => exact absurd rfl hpop
    | cons x rest => exact ⟨x, rest, rfl⟩
  unfold refillLoop
  rw [if_pos hneed]
  obtain ⟨p1, hp1, hp1mem⟩ := choice_ok x (rest.take 4) s
  have htake : (x :: rest).take 5 = x :: rest.take 4 := rfl
  rw [htake]
  rw [PyM.bind_ok hp1]
  obtain ⟨p2, hp2, _⟩ := choice_ok x (rest.take 4) { s with pos := s.pos + 1 }
  rw [PyM.bind_ok hp2]
  have hp1genes : p1.genes.length = 1 := by
    apply hgenes
    rw [← htake] at hp1mem
    exact List.mem_of_mem_take hp1mem
  rw [PyM.bind_err (crossover_single_err p1 p2 _ hp1genes)]

/-! ## Population initialisation for a single part -/

theorem genGenes_single (pd : PartData) (h : 1 ≤ pd.rotations.length) (s : RS) :
    ∃ k : ℕ, genGenes [pd] s
      = .ok ([{ id := pd.id, rotation := k }], { s with pos := s.pos + 1 }) := by
  obtain ⟨v, hv, hlo, hhi⟩ := randint_ok 0 ((pd.rotations.length : ℤ) - 1) (by omega) s
  refine ⟨v.toNat, ?_⟩
  unfold genGenes
  rw [PyM.bind_ok hv]
  have hnil : genGenes [] { s with pos := s.pos + 1 }
      = .ok ([], { s with pos := s.pos + 1 }) := rfl
  rw [PyM.bind_ok hnil]
  rfl

theorem shuffle_single (g : Gene) (s : RS) : shuffle [g] s = .ok ([g], s) := rfl

theorem initPopAux_single (pd : PartData) (h : 1 ≤ pd.rotations.length) (n : ℕ) :
    ∀ s : RS, ∃ (pop : List Individual) (s2 : RS),
      initPopAux [pd] n s = .ok (pop, s2) ∧ pop.length = n ∧
      ∀ ind ∈ pop, ind.genes.length = 1 := by
  induction n with
  | zero => exact fun s => ⟨[], s, rfl, rfl, by simp⟩
  | succ n ih =>
    intro s
    obtain ⟨k, hk⟩ := genGenes_single pd h s
    obtain ⟨pop, s2, hpop, hlen, hgen⟩ := ih { s with pos := s.pos + 1 }
    refine ⟨{ genes := [{ id := pd.id, rotation := k }], fitness := Flt.inf,
              placements := [] } :: pop, s2, ?_, by simp [hlen], ?_⟩
    · unfold initPopAux
      rw [PyM.bind_ok hk, PyM.bind_ok (shuffle_single _ _), PyM.bind_ok hpop]
      rfl
    · intro ind hmem
      rcases List.mem_cons.mp hmem with rfl | hm
      · rfl
      · exact hgen ind hm

theorem prepareParts_single (cfg : Config) (trig : ℚ → ℚ × ℚ) (part : List Pt) :
    prepareParts cfg trig [part]
      = [{ id := 0, polygon := part,
           rotations := (List.range cfg.rotations).map (fun r : ℕ =>
             let angle : ℚ := (360 / (cfg.rotations : ℚ)) * (r : ℚ)
             { angle := angle, polygon := rotate_polygon trig part angle }) }] := rfl

theorem prepareParts_single_ex (cfg : Config) (trig : ℚ → ℚ × ℚ) (part : List Pt) :
    ∃ pd : PartData, prepareParts cfg trig [part] = [pd]
      ∧ pd.rotations.length = cfg.rotations := by
  refine ⟨{ id := 0, polygon := part,
            rotations := (List.range cfg.rotations).map (fun r : ℕ =>
              let angle : ℚ := (360 / (cfg.rotations : ℚ)) * (r : ℚ)
              { angle := angle, polygon := rotate_polygon trig part angle }) },
          prepareParts_single cfg trig part, ?_⟩
  rw [List.length_map, List.length_range]

/-! ## A single-part solve always reaches the first crossover and raises -/

theorem generationLoop_succ (cfg : Config) (pp : List PartData) (container : List Pt)
    (population : List Individual) (st : BestState) (gens : ℕ) :
    generationLoop cfg pp container population st (gens + 1) =
      (let g := generationEval pp container population st
       if g.brk then PyM.pure g.state
       else
         let sorted := g.population.mergeSort (fun a b => fltLe a.fitness b.fitness)
         PyM.bind (refillLoop cfg sorted (sorted.take (cfg.population_size / 2))
             cfg.population_size)
           (fun newpop => generationLoop cfg pp container newpop g.state gens)) :=
  rfl

theorem generationLoop_single_err (cfg : Config) (pp : List PartData)
    (container : List Pt) (pop : List Individual) (s : RS) (gens : ℕ)
    (hp : 1 ≤ cfg.population_size)
    (hlen : pop.length = cfg.population_size)
    (hgenes : ∀ ind ∈ pop, ind.genes.length = 1)
    (hgens : 1 ≤ gens) :
    generationLoop cfg pp container pop
      { best_fitness := Flt.inf, best_individual := none, no_improvement_count := 0 }
      gens s = .error .valueError := by
  obtain ⟨m, rfl⟩ : ∃ m, gens = m + 1 := ⟨gens - 1, by omega⟩
  rw [generationLoop_succ]
  obtain ⟨hcnt, hbrk, hpopeq, _⟩ := generationEval_spec pp container pop
    { best_fitness := Flt.inf, best_individual := none, no_improvement_count := 0 }
  have hcnt1 : (generationEval pp container pop
      { best_fitness := Flt.inf, best_individual := none,
        no_improvement_count := 0 }).state.no_improvement_count = 1 := by
    rw [hcnt]
    simp
  have hbrkf : (generationEval pp container pop
      { best_fitness := Flt.inf, best_individual := none,
        no_improvement_count := 0 }).brk = false := by
    rw [hbrk, hcnt1]
    decide
  simp only [hbrkf, Bool.false_eq_true, if_false]
  obtain ⟨hevlen, hevgenes⟩ := evalLoop_genes pp container pop
    { best_fitness := Flt.inf, best_individual := none, no_improvement_count := 0 } Flt.inf
  have hslen : ((generationEval pp container pop
      { best_fitness := Flt.inf, best_individual := none,
        no_improvement_count := 0 }).population.mergeSort
        (fun a b => fltLe a.fitness b.fitness)).length = cfg.population_size := by
    rw [List.length_mergeSort, hpopeq, hevlen, hlen]
  apply PyM.bind_err
  apply refillLoop_single_err
  · rw [List.length_take, hslen]
    have : cfg.population_size / 2 < cfg.population_size :=
      Nat.div_lt_self (by omega) (by omega)
    omega
  · intro hnil
    rw [hnil] at hslen
    simp at hslen
    omega
  · intro ind hmem
    rw [List.mem_mergeSort, hpopeq] at hmem
    obtain ⟨ind0, hm0, hg0⟩ := hevgenes ind hmem
    rw [hg0]
    exact hgenes ind0 hm0
  · omega

/-- Any `solve` call on exactly one part (with a nonempty container and a
config with at least one rotation variant, a positive population size and at
least one generation) raises `ValueError`: the generation-0 refill calls
`_crossover` on single-gene parents, and `random.randint(1, 0)` raises. -/
theorem solve_one_part_error (cfg : Config) (trig : ℚ → ℚ × ℚ) (part : List Pt)
    (container : List Pt) (s : RS) (hc : container ≠ [])
    (hr : 1 ≤ cfg.rotations) (hp : 1 ≤ cfg.population_size)
    (hg : 1 ≤ cfg.max_generations) :
    solve cfg trig [part] container s = .error .valueError := by
  unfold solve
  have hce : container.isEmpty = false := by
    cases container with
    | nil => exact absurd rfl hc
    | cons a l => rfl
  simp only [hce, List.isEmpty_cons, Bool.false_or, Bool.or_false, if_false,
    Bool.false_eq_true]
  obtain ⟨pd, hpd, hpdrot⟩ := prepareParts_single_ex cfg trig part
  obtain ⟨pop, s2, hpop, hlen, hgenes⟩ :=
    initPopAux_single pd (by omega) cfg.population_size s
  have hinit : initPopulation cfg (prepareParts cfg trig [part]) s = .ok (pop, s2) := by
    unfold initPopulation
    rw [hpd]
    exact hpop
  rw [PyM.bind_ok hinit]
  apply PyM.bind_err
  exact generationLoop_single_err cfg _ container pop s2 cfg.max_generations hp hlen
    hgenes hg

/-! ## Auxiliary lemmas for the placement search and the geometry kernel -/

theorem ratFloor_eq_floor (q : ℚ) : ratFloor q = ⌊q⌋ := by
  rw [Rat.floor_def, ratFloor, Int.fdiv_eq_ediv _ (by positivity)]

theorem pyRange_self (a step : ℤ) : pyRange a a step = [] := by
  unfold pyRange
  have h0 : (a - a).toNat = 0 := by omega
  rw [h0]
  rfl

theorem firstSome_of_all_none {α β : Type} {f : α → Option β} {l : List α}
    (h : ∀ a ∈ l, f a = none) : firstSome f l = none := by
  induction l with
  | nil => rfl
  | cons a t ih =>
    unfold firstSome
    rw [h a (List.mem_cons_self a t)]
    exact ih (fun b hb => h b (List.mem_cons_of_mem a hb))

theorem pipStepChecked_eq (x y : ℚ) (p q : Pt) (inside : Bool) :
    pipStepChecked x y p q inside = some (pipStep x y p q inside) := by
  unfold pipStep pipStepChecked
  by_cases hg : (decide (p.y > y) != decide (q.y > y)) = true
  · have hiff : ¬ (p.y > y ↔ q.y > y) := by
      simpa [bne_iff_ne, decide_eq_decide] using hg
    have hne : ¬ (q.y - p.y = 0) := by
      intro h0
      rw [sub_eq_zero] at h0
      exact hiff (by rw [h0])
    rw [if_pos hg, if_neg hne]
    simp [hg]
  · have hg2 : (decide (p.y > y) != decide (q.y > y)) = false := by
      simpa using hg
    rw [if_neg hg]
    simp [hg2]

theorem pip_fold_eq (x y : ℚ) (polygon : List Pt) (n : ℕ) (l : List ℕ) :
    ∀ inside : Bool,
      l.foldl (fun acc i =>
        match acc with
        | none => none
        | some ins =>
          pipStepChecked x y (polygon.getD i ⟨0, 0⟩)
            (polygon.getD ((i + n - 1) % n) ⟨0, 0⟩) ins) (some inside)
      = some (l.foldl (fun ins i =>
          pipStep x y (polygon.getD i ⟨0, 0⟩)
            (polygon.getD ((i + n - 1) % n) ⟨0, 0⟩) ins) inside) := by
  induction l with
  | nil => intro inside; rfl
  | cons a t ih =>
    intro inside
    simp only [List.foldl_cons]
    rw [pipStepChecked_eq]
    exact ih _

/-! ## Claim theorems

The rational arithmetic of the kernel is sealed in Batteries; make it
transparent so that concrete computations can be decided. -/

attribute [local semireducible] Rat.mul Rat.add Rat.sub Rat.inv Rat.ofScientific

/-- C1: For the spec's scenario (container = (0,0)-(100,100) square, one 10x10
square part, `rotations = 1`, `population_size = 4`, `max_generations = 5`) the
spec expects exactly one placement with fitness 100 anchored at (0, 0).  The
evaluation level does behave that way — the bottom-left scan places the part at
(0, 0) and the fitness is 100 — but `solve` itself never returns: for every
random stream it raises `ValueError` in generation 0, because the refill's
`_crossover` on single-gene parents calls `random.randint(1, 0)`. -/
theorem c1_scenario_crashes (s : RS) :
    solve scenarioConfig trigZero [square10] square100 s = .error .valueError ∧
    find_position (rotate_polygon trigZero square10 0) [] (get_polygon_bounds square100)
      = some (0, 0) ∧
    (evaluate_fitness scenarioParts square100 scenarioIndividual).1 = Flt.val 100 ∧
    (evaluate_fitness scenarioParts square100 scenarioIndividual).2.length = 1 := by
  refine ⟨solve_one_part_error scenarioConfig trigZero square10 square100 s
    (by decide) (by decide) (by decide) (by decide), by decide, by decide, by decide⟩

/-- C2: For every one-part input with a nonempty container (and a config with
at least one rotation variant, a positive population size and at least one
generation, as the spec's validation requires), `solve` raises `ValueError`
during the first generation's refill: `_crossover` draws
`random.randint(1, gene_count - 1) = randint(1, 0)`, an empty range.  A
single-part solve never returns a result, for any random stream. -/
theorem c2_single_part_solve_raises (cfg : Config) (trig : ℚ → ℚ × ℚ)
    (part container : List Pt) (s : RS) (hc : container ≠ [])
    (hr : 1 ≤ cfg.rotations) (hp : 1 ≤ cfg.population_size)
    (hg : 1 ≤ cfg.max_generations) :
    solve cfg trig [part] container s = .error .valueError :=
  solve_one_part_error cfg trig part container s hc hr hp hg

theorem c2_witness :
    (([⟨0, 0⟩, ⟨50, 0⟩, ⟨0, 50⟩] : List Pt) ≠ []) ∧
    1 ≤ defaultConfig.rotations ∧ 1 ≤ defaultConfig.population_size ∧
    1 ≤ defaultConfig.max_generations ∧
    solve defaultConfig trigZero [[⟨0, 0⟩, ⟨3, 0⟩, ⟨0, 3⟩]]
      [⟨0, 0⟩, ⟨50, 0⟩, ⟨0, 50⟩] { vals := fun _ => 1, pos := 0 }
      = .error .valueError :=
  ⟨by decide, by decide, by decide, by decide,
   c2_single_part_solve_raises defaultConfig trigZero [⟨0, 0⟩, ⟨3, 0⟩, ⟨0, 3⟩]
     [⟨0, 0⟩, ⟨50, 0⟩, ⟨0, 50⟩] { vals := fun _ => 1, pos := 0 }
     (by decide) (by decide) (by decide) (by decide)⟩

/-- C3 (counterexample): an improving generation does not leave the stagnation
counter at zero.  In the scenario's generation 0 the population improves on the
best-ever (`generation_best = 100 < inf`), yet the counter ends at 1, because
the code increments it whenever `generation_best >= best_fitness` holds after
`best_fitness` was already updated — which is always. -/
theorem c3_counterexample :
    fltLt (evalLoop scenarioParts square100 [scenarioIndividual] initialBest
        Flt.inf).generation_best initialBest.best_fitness = true ∧
    (generationEval scenarioParts square100 [scenarioIndividual]
        initialBest).state.no_improvement_count ≠ 0 := by
  exact ⟨by decide, by decide⟩

/-- C3 (amended): in every generation the stagnation counter is incremented
(the post-update comparison `generation_best >= best_fitness` always holds);
just before the increment it is reset to zero exactly when the generation's
best strictly improved on the incoming best-ever, so an improving generation
leaves the counter at 1, a non-improving one at its old value plus 1; the loop
breaks exactly when the incremented counter reaches the patience threshold 10. -/
theorem c3_stagnation_counter (pp : List PartData) (container : List Pt)
    (population : List Individual) (st : BestState) :
    (generationEval pp container population st).state.no_improvement_count
      = (if fltLt (evalLoop pp container population st Flt.inf).generation_best
            st.best_fitness then 0 else st.no_improvement_count) + 1 ∧
    (generationEval pp container population st).brk
      = decide (10 ≤ (generationEval pp container population st).state.no_improvement_count) :=
  ⟨(generationEval_spec pp container population st).1,
   (generationEval_spec pp container population st).2.1⟩

/-- C4 (counterexample): `simplify_nfp` does not return at least 3 points for
*every* input: an input with fewer than 3 points is returned unchanged, e.g.
the empty region yields the empty (0-point) result. -/
theorem c4_counterexample : ¬ 3 ≤ (simplify_nfp [] nfpTolerance).length := by
  decide

/-- C4 (amended): for every input region with at least 3 points and every
tolerance, `simplify_nfp` returns at least 3 points, and returns the original
input unchanged whenever pruning collinear points would leave fewer than 3. -/
theorem c4_simplify_min_three (nfp : List Pt) (tolerance : ℚ) (h : 3 ≤ nfp.length) :
    3 ≤ (simplify_nfp nfp tolerance).length ∧
    (¬ 3 ≤ (pruneCollinear nfp tolerance).length → simplify_nfp nfp tolerance = nfp) := by
  unfold simplify_nfp
  rw [if_neg (by omega)]
  by_cases hp : 3 ≤ (pruneCollinear nfp tolerance).length
  · rw [if_pos hp]
    exact ⟨hp, fun hc => absurd hp hc⟩
  · rw [if_neg hp]
    exact ⟨h, fun _ => rfl⟩

theorem c4_witness :
    3 ≤ ([⟨0, 0⟩, ⟨10, 0⟩, ⟨10, 10⟩, ⟨0, 10⟩] : List Pt).length ∧
    3 ≤ (simplify_nfp [⟨0, 0⟩, ⟨10, 0⟩, ⟨10, 10⟩, ⟨0, 10⟩] nfpTolerance).length :=
  ⟨by decide,
   (c4_simplify_min_three [⟨0, 0⟩, ⟨10, 0⟩, ⟨10, 10⟩, ⟨0, 10⟩] nfpTolerance (by decide)).1⟩

/-- C5 (counterexample): `nfp_intersect` is *not* "smaller input, or empty iff
both areas are zero": for a degenerate 2-point first region (area 0) and a
square second region (area 100), the code returns the empty result even though
the second area is nonzero, and it does not return the smaller-area input. -/
theorem c5_counterexample :
    nfp_intersect [⟨0, 0⟩, ⟨1, 0⟩] square10 = [] ∧
    ¬ |polygon_area square10| = 0 ∧
    nfp_intersect [⟨0, 0⟩, ⟨1, 0⟩] square10 ≠ [[⟨0, 0⟩, ⟨1, 0⟩]] := by
  exact ⟨by decide, by decide, by decide⟩

/-- C5 (amended): `nfp_intersect` returns the empty result exactly when the
*smaller* of the two absolute enclosed areas is zero; otherwise it returns the
smaller-area input (the second input on ties) as a single-region result. -/
theorem c5_nfp_intersect (nfp1 nfp2 : List Pt) :
    nfp_intersect nfp1 nfp2 =
      (if min |polygon_area nfp1| |polygon_area nfp2| = 0 then []
       else if |polygon_area nfp1| < |polygon_area nfp2| then [nfp1] else [nfp2]) := by
  unfold nfp_intersect
  have h1 := abs_nonneg (polygon_area nfp1)
  have h2 := abs_nonneg (polygon_area nfp2)
  rcases lt_or_le |polygon_area nfp1| |polygon_area nfp2| with hlt | hle
  · rw [if_pos hlt, min_eq_left hlt.le]
    by_cases hz : |polygon_area nfp1| = 0
    · rw [if_neg (by rw [hz]; exact lt_irrefl 0), if_pos hz]
    · rw [if_pos (lt_of_le_of_ne h1 (Ne.symm hz)), if_neg hz, if_pos hlt]
  · rw [if_neg (not_lt.mpr hle), min_eq_right hle]
    by_cases hz : |polygon_area nfp2| = 0
    · rw [if_neg (by rw [hz]; exact lt_irrefl 0), if_pos hz]
    · rw [if_pos (lt_of_le_of_ne h2 (Ne.symm hz)), if_neg hz,
        if_neg (not_lt.mpr hle)]

/-- C6: `_crossover` on two parents with the same gene count `N ≥ 2` draws a
cut in `[1, N-1]` and produces the raw slice concatenation
`parent1.genes[:cut] + parent2.genes[cut:]`, whose length is `N` (no
permutation repair). -/
theorem c6_crossover_slice (parent1 parent2 : Individual) (N : ℕ) (s : RS)
    (h1 : parent1.genes.length = N) (h2 : parent2.genes.length = N) (hN : 2 ≤ N) :
    ∃ (child : Individual) (cut : ℕ),
      crossover parent1 parent2 s = .ok (child, { s with pos := s.pos + 1 }) ∧
      1 ≤ cut ∧ cut ≤ N - 1 ∧
      child.genes = parent1.genes.take cut ++ parent2.genes.drop cut ∧
      child.genes.length = N :=
  crossover_ok parent1 parent2 N s h1 h2 hN

theorem c6_witness :
    ({ genes := [{ id := 0, rotation := 0 }, { id := 1, rotation := 0 }],
       fitness := Flt.inf, placements := [] } : Individual).genes.length = 2 ∧
    ({ genes := [{ id := 1, rotation := 1 }, { id := 0, rotation := 2 }],
       fitness := Flt.inf, placements := [] } : Individual).genes.length = 2 ∧
    (2 : ℕ) ≤ 2 ∧
    ∃ (child : Individual) (cut : ℕ),
      crossover
        { genes := [{ id := 0, rotation := 0 }, { id := 1, rotation := 0 }],
          fitness := Flt.inf, placements := [] }
        { genes := [{ id := 1, rotation := 1 }, { id := 0, rotation := 2 }],
          fitness := Flt.inf, placements := [] }
        { vals := fun _ => 0, pos := 0 }
        = .ok (child, { vals := fun _ => 0, pos := 1 }) ∧
      1 ≤ cut ∧ cut ≤ 2 - 1 ∧
      child.genes
        = ([{ id := 0, rotation := 0 }, { id := 1, rotation := 0 }] : List Gene).take cut
          ++ ([{ id := 1, rotation := 1 }, { id := 0, rotation := 2 }] : List Gene).drop cut ∧
      child.genes.length = 2 :=
  ⟨rfl, rfl, by omega,
   c6_crossover_slice
     { genes := [{ id := 0, rotation := 0 }, { id := 1, rotation := 0 }],
       fitness := Flt.inf, placements := [] }
     { genes := [{ id := 1, rotation := 1 }, { id := 0, rotation := 2 }],
       fitness := Flt.inf, placements := [] }
     2 { vals := fun _ => 0, pos := 0 } rfl rfl (by omega)⟩

/-- C7: with an empty parts list or an empty container, `solve` returns the
sentinel `{fitness: inf, placements: []}` without raising, leaving the random
stream untouched (no generation of the genetic search runs). -/
theorem c7_insufficient_input (cfg : Config) (trig : ℚ → ℚ × ℚ)
    (parts : List (List Pt)) (container : List Pt) (s : RS)
    (h : parts = [] ∨ container = []) :
    solve cfg trig parts container s
      = .ok ({ fitness := Flt.inf, placements := [] }, s) := by
  unfold solve
  rcases h with rfl | rfl
  · rfl
  · rw [List.isEmpty_nil, Bool.or_true]
    rfl

theorem c7_witness :
    (([] : List (List Pt)) = [] ∨ square100 = []) ∧
    solve defaultConfig trigZero [] square100 { vals := fun _ => 0, pos := 0 }
      = .ok ({ fitness := Flt.inf, placements := [] }, { vals := fun _ => 0, pos := 0 }) :=
  ⟨Or.inl rfl,
   c7_insufficient_input defaultConfig trigZero [] square100
     { vals := fun _ => 0, pos := 0 } (Or.inl rfl)⟩

/-- C8 (counterexample): the grid step used by `_find_position` is *not*
`max(20, min(bbox width, bbox height) / 4)` with exact division: for an 82x200
rectangle the code's floor division gives `max(20, 82 // 4) = 20`, while the
spec's exact division gives `max(20, 20.5) = 20.5`. -/
theorem c8_counterexample :
    grid_step (get_polygon_bounds rect82) ≠ spec_grid_step (get_polygon_bounds rect82) := by
  decide

/-- C8 (amended): the grid step is `max(20, min(bbox width, bbox height) // 4)`
with *floor* division; it agrees with the spec's exact-division formula exactly
when the smaller bbox dimension is at most 80 or its quarter is an integer. -/
theorem c8_grid_step (pb : Bounds) :
    grid_step pb = max 20 ((ratFloor (min pb.width pb.height / 4) : ℤ) : ℚ) ∧
    (grid_step pb = spec_grid_step pb ↔
      min pb.width pb.height ≤ 80 ∨
      ((ratFloor (min pb.width pb.height / 4) : ℤ) : ℚ) = min pb.width pb.height / 4) := by
  refine ⟨rfl, ?_⟩
  unfold grid_step spec_grid_step
  rw [ratFloor_eq_floor]
  constructor
  · intro heq
    by_cases hq : min pb.width pb.height ≤ 80
    · exact Or.inl hq
    · right
      push_neg at hq
      have h20 : (20 : ℚ) ≤ min pb.width pb.height / 4 := by linarith
      have hfl20 : (20 : ℚ) ≤ ((⌊min pb.width pb.height / 4⌋ : ℤ) : ℚ) := by
        have h20z : (20 : ℤ) ≤ ⌊min pb.width pb.height / 4⌋ := by
          apply Int.le_floor.mpr
          exact_mod_cast h20
        exact_mod_cast h20z
      rw [max_eq_right hfl20, max_eq_right h20] at heq
      exact heq
  · intro h
    rcases h with hq | heq
    · have h1 : min pb.width pb.height / 4 ≤ 20 := by linarith
      have h2 : ((⌊min pb.width pb.height / 4⌋ : ℤ) : ℚ) ≤ 20 :=
        le_trans (Int.floor_le _) h1
      rw [max_eq_left h2, max_eq_left h1]
    · rw [heq]

/-- C9: `point_in_polygon` always returns a boolean and never fails: whenever
the interior division is evaluated, the parity guard `(yi > y) != (yj > y)`
forces `yi ≠ yj`, so the checked variant (which reports any division by zero)
returns `some` of the plain result on every input, boundary and vertex points
included. -/
theorem c9_point_in_polygon_total (point : Pt) (polygon : List Pt) :
    point_in_polygon_checked point polygon = some (point_in_polygon point polygon) := by
  unfold point_in_polygon point_in_polygon_checked
  by_cases h : polygon.length < 3
  · rw [if_pos h, if_pos h]
  · rw [if_neg h, if_neg h]
    exact pip_fold_eq point.x point.y polygon polygon.length
      (List.range polygon.length) false

/-- C10: a part whose bbox width equals the container's bbox width (or height
equals height) is never placed: the scan ranges
`range(int(cb.x), int(cb.x + cb.width - pb.width), step)` exclude their upper
endpoint, so an exact fit leaves an empty candidate range and `_find_position`
returns `None` (the gene is then silently dropped by `_evaluate_fitness`). -/
theorem c10_exact_fit_never_placed (polygon : List Pt) (placed : List Placement)
    (cb : Bounds)
    (h : (get_polygon_bounds polygon).width = cb.width ∨
         (get_polygon_bounds polygon).height = cb.height) :
    find_position polygon placed cb = none := by
  simp only [find_position]
  rcases h with hw | hh
  · have hx : cb.x + cb.width - (get_polygon_bounds polygon).width = cb.x := by
      rw [hw]; ring
    rw [hx, pyRange_self]
    apply firstSome_of_all_none
    intro y _
    rfl
  · have hy : cb.y + cb.height - (get_polygon_bounds polygon).height = cb.y := by
      rw [hh]; ring
    rw [hy, pyRange_self]
    rfl

theorem c10_witness :
    ((get_polygon_bounds square10).width = (Bounds.mk 0 0 10 50).width ∨
     (get_polygon_bounds square10).height = (Bounds.mk 0 0 10 50).height) ∧
    find_position square10 [] (Bounds.mk 0 0 10 50) = none :=
  ⟨Or.inl (by decide),
   c10_exact_fit_never_placed square10 [] (Bounds.mk 0 0 10 50) (Or.inl (by decide))⟩
